import Mathlib

/-
Shallow embedding of `src/inventory_system.py` (the Product hierarchy, the
Inventory store and the persistence codec), together with theorems settling
the specification claims.

Modelling conventions:
  * Python ints are `Int`, prices (Python floats used as exact decimals) are `ℚ`,
    strings are `String`.
  * `self._products` is a Python dict keyed by `product_id`; dicts preserve
    insertion order and assignment to an existing key keeps its position.  It is
    modelled as an insertion-ordered list of products whose key is
    `Product.product_id`, with first-match lookup (keys are unique in every
    dict state).
  * In-place mutation with exceptions is modelled by returning the post-call
    store together with `Option InvError`: `(inv', none)` is normal return,
    `(inv', some e)` is an escaping exception raised with the store left in
    state `inv'` (Python mutates `self` in place, so a partially completed
    method leaves its partial effects behind - relevant for `load_from_file`).
  * `datetime.today().date()` is an impure call made inside `Grocery.is_expired`
    once per check; it is modelled by an oracle `clock : Nat → Date` giving the
    date observed at the k-th expiry check of the call.
  * The file system and JSON text layer are external collaborators: `save`
    produces the list of records `json.dump` would write, and `load` consumes
    the outcome of `json.load` (`Except String (List Record)`, where `.error`
    is a parse failure with its message).
-/

namespace Inv

/-- The JSON-representable scalar values appearing in persisted records.
Python's `json` distinguishes ints from floats; products only ever store
strings (`.s`), exact decimals/floats (`.q`) and ints (`.i`). -/
inductive JValue where
  | s (v : String)
  | q (v : ℚ)
  | i (v : Int)
  deriving DecidableEq, Repr

/-- Render a `JValue` the way Python's f-string would embed it in a message
(only used inside error messages, where no claim inspects the exact text). -/
def JValue.render : JValue → String
  | .s v => v
  | .q v => toString v
  | .i v => toString v

/-- The exception classes of `inventory_system.py`.  `DuplicateProductIDError`,
`OutOfStockError` and `InvalidProductDataError` subclass `InventoryError`;
`inventoryError` is a direct raise of the base class itself (the code raises
the bare base class for "Product not found.").  Each carries its message. -/
inductive InvError where
  | inventoryError (msg : String)
  | duplicateProductIDError (msg : String)
  | outOfStockError (msg : String)
  | invalidProductDataError (msg : String)
  deriving DecidableEq, Repr

/-- `true` iff the error is the base class `InventoryError` itself rather than
one of its dedicated subclasses. -/
def InvError.isBase : InvError → Bool
  | .inventoryError _ => true
  | _ => false

/-- The closed product hierarchy: abstract `Product` with concrete variants
`Electronics`, `Grocery`, `Clothing`.  Common fields (`_product_id`, `_name`,
`_price`, `_quantity_in_stock`) appear in every variant; each variant adds its
extra fields exactly as in the source constructors. -/
inductive Product where
  | electronics (product_id name : String) (price : ℚ) (quantity_in_stock : Int)
      (warranty_years : Int) (brand : String)
  | grocery (product_id name : String) (price : ℚ) (quantity_in_stock : Int)
      (expiry_date : String)
  | clothing (product_id name : String) (price : ℚ) (quantity_in_stock : Int)
      (size : String) (material : String)
  deriving DecidableEq, Repr

namespace Product

/-- `self._product_id`. -/
def product_id : Product → String
  | .electronics pid _ _ _ _ _ => pid
  | .grocery pid _ _ _ _ => pid
  | .clothing pid _ _ _ _ _ => pid

/-- `self._name`. -/
def pname : Product → String
  | .electronics _ n _ _ _ _ => n
  | .grocery _ n _ _ _ => n
  | .clothing _ n _ _ _ _ => n

/-- `self._price`. -/
def price : Product → ℚ
  | .electronics _ _ pr _ _ _ => pr
  | .grocery _ _ pr _ _ => pr
  | .clothing _ _ pr _ _ _ => pr

/-- `self._quantity_in_stock`. -/
def quantity_in_stock : Product → Int
  | .electronics _ _ _ q _ _ => q
  | .grocery _ _ _ q _ => q
  | .clothing _ _ _ q _ _ => q

/-- Assignment `self._quantity_in_stock = q` (all other fields unchanged). -/
def withQuantity : Product → Int → Product
  | .electronics pid n pr _ w b, q => .electronics pid n pr q w b
  | .grocery pid n pr _ e, q => .grocery pid n pr q e
  | .clothing pid n pr _ s m, q => .clothing pid n pr q s m

/-- `Product.restock`: `self._quantity_in_stock += amount`, unconditionally. -/
def restock (p : Product) (amount : Int) : Product :=
  p.withQuantity (p.quantity_in_stock + amount)

/-- `Product.sell`: raises `OutOfStockError` when `quantity > self._quantity_in_stock`,
otherwise `self._quantity_in_stock -= quantity`. -/
def sell (p : Product) (quantity : Int) : Product × Option InvError :=
  if p.quantity_in_stock < quantity then
    (p, some (.outOfStockError ("Not enough stock for product " ++ p.pname)))
  else
    (p.withQuantity (p.quantity_in_stock - quantity), none)

/-- `Product.get_total_value`: `self._price * self._quantity_in_stock`. -/
def get_total_value (p : Product) : ℚ :=
  p.price * (p.quantity_in_stock : ℚ)

/-- A persisted record: the parsed form of one JSON object (keys are unique,
order as produced). -/
abbrev Record := List (String × JValue)

/-- `to_dict` (the base-class dict updated with the variant's extra fields;
`type` is `self.__class__.__name__`). -/
def to_dict : Product → Record
  | .electronics pid n pr q w b =>
      [("type", .s "Electronics"), ("product_id", .s pid), ("name", .s n),
       ("price", .q pr), ("quantity_in_stock", .i q),
       ("warranty_years", .i w), ("brand", .s b)]
  | .grocery pid n pr q e =>
      [("type", .s "Grocery"), ("product_id", .s pid), ("name", .s n),
       ("price", .q pr), ("quantity_in_stock", .i q),
       ("expiry_date", .s e)]
  | .clothing pid n pr q s m =>
      [("type", .s "Clothing"), ("product_id", .s pid), ("name", .s n),
       ("price", .q pr), ("quantity_in_stock", .i q),
       ("size", .s s), ("material", .s m)]

end Product

/-- A calendar date, the value of `datetime.today().date()` or of a parsed
expiry date. -/
structure Date where
  year : Nat
  month : Nat
  day : Nat
  deriving DecidableEq, Repr

/-- Strict `<` on dates (Python compares `date` objects lexicographically). -/
def Date.lt (a b : Date) : Bool :=
  a.year < b.year ||
    (a.year == b.year && (a.month < b.month || (a.month == b.month && a.day < b.day)))

/-- Split a character list at every `-` (the behavior of splitting the string
on the format's literal separators). -/
def splitDash : List Char → List (List Char)
  | [] => [[]]
  | c :: cs =>
    if c = '-' then [] :: splitDash cs
    else
      match splitDash cs with
      | [] => [[c]]
      | g :: gs => (c :: g) :: gs

/-- Accumulate decimal digits; `none` on a non-digit. -/
def parseNatAux : List Char → Nat → Option Nat
  | [], acc => some acc
  | c :: cs, acc =>
    if '0' ≤ c ∧ c ≤ '9' then parseNatAux cs (acc * 10 + (c.toNat - 48)) else none

/-- A non-empty all-digit character group as a number. -/
def parseNatChars (cs : List Char) : Option Nat :=
  match cs with
  | [] => none
  | _ => parseNatAux cs 0

/-- `datetime.strptime(s, "%Y-%m-%d").date()`: parses `YYYY-MM-DD`, `none` when
the call would raise `ValueError`.  (CPython additionally validates the day
against the month's length; no claim exercises that refinement, and every date
in this development has day ≤ 28.) -/
def strptimeDate (s : String) : Option Date :=
  match splitDash s.data with
  | [y, m, d] =>
    match parseNatChars y, parseNatChars m, parseNatChars d with
    | some yn, some mn, some dn =>
      if 1 ≤ mn ∧ mn ≤ 12 ∧ 1 ≤ dn ∧ dn ≤ 31 then some ⟨yn, mn, dn⟩ else none
    | _, _, _ => none
  | _ => none

/-- `Grocery.is_expired` evaluated at the observed current date `today`:
`strptime(expiry_date) < today`; `none` when parsing raises.  Only groceries
have this method. -/
def Product.is_expired (p : Product) (today : Date) : Option Bool :=
  match p with
  | .grocery _ _ _ _ e => (strptimeDate e).map (fun d => Date.lt d today)
  | _ => none

/-- The `Inventory` store: `self._products`, an insertion-ordered dict from
`product_id` to the owned `Product`. -/
structure Inventory where
  products : List Product
  deriving DecidableEq, Repr

namespace Inventory

/-- `Inventory()`. -/
def empty : Inventory := ⟨[]⟩

/-- Dict lookup `self._products[pid]` / membership `pid in self._products`
(first match; dict keys are unique). -/
def find (inv : Inventory) (pid : String) : Option Product :=
  inv.products.find? (fun p => p.product_id == pid)

/-- Replace the (first) entry with key `pid` by `f` applied to it. -/
def modifyFirst (pid : String) (f : Product → Product) : List Product → List Product
  | [] => []
  | p :: rest =>
    if p.product_id == pid then f p :: rest else p :: modifyFirst pid f rest

/-- Dict assignment `self._products[pid] = product` where `pid` is
`product._product_id`: overwrite in place when the key exists, else append. -/
def insertOrReplace (inv : Inventory) (p : Product) : Inventory :=
  if (inv.find p.product_id).isSome then
    ⟨modifyFirst p.product_id (fun _ => p) inv.products⟩
  else ⟨inv.products ++ [p]⟩

/-- `add_product`: raises `DuplicateProductIDError` when the id is already a
key, otherwise inserts. -/
def add_product (inv : Inventory) (p : Product) : Inventory × Option InvError :=
  if (inv.find p.product_id).isSome then
    (inv, some (.duplicateProductIDError "Product ID already exists."))
  else (⟨inv.products ++ [p]⟩, none)

/-- `remove_product`: `self._products.pop(product_id, None)` - removes the key
if present, silently does nothing otherwise. -/
def remove_product (inv : Inventory) (pid : String) : Inventory :=
  ⟨inv.products.eraseP (fun p => p.product_id == pid)⟩

/-- `list_all_products`: `list(self._products.values())`. -/
def list_all_products (inv : Inventory) : List Product :=
  inv.products

/-- `sell_product`: raises the base `InventoryError("Product not found.")` when
the id is absent, else delegates to `Product.sell` on the stored product
(mutating it in place; a raised `OutOfStockError` escapes with the store
unchanged). -/
def sell_product (inv : Inventory) (pid : String) (quantity : Int) :
    Inventory × Option InvError :=
  match inv.find pid with
  | none => (inv, some (.inventoryError "Product not found."))
  | some p =>
    match p.sell quantity with
    | (_, some e) => (inv, some e)
    | (p', none) => (⟨modifyFirst pid (fun _ => p') inv.products⟩, none)

/-- `restock_product`: raises the base `InventoryError("Product not found.")`
when the id is absent, else delegates to `Product.restock` (never raises). -/
def restock_product (inv : Inventory) (pid : String) (quantity : Int) :
    Inventory × Option InvError :=
  match inv.find pid with
  | none => (inv, some (.inventoryError "Product not found."))
  | some p => (⟨modifyFirst pid (fun _ => p.restock quantity) inv.products⟩, none)

/-- `total_inventory_value`: sum of `get_total_value` over the stored products. -/
def total_inventory_value (inv : Inventory) : ℚ :=
  (inv.products.map Product.get_total_value).sum

/-- The list comprehension
`[pid for pid, p in self._products.items() if isinstance(p, Grocery) and p.is_expired()]`.
`clock k` is the date `datetime.today().date()` returns at the k-th
`is_expired` call of this invocation (the source queries it once per Grocery);
`none` when some expiry date fails to parse (`ValueError` escapes). -/
def expiredIds (clock : Nat → Date) : Nat → List Product → Option (List String)
  | _, [] => some []
  | k, p :: rest =>
    match p with
    | .grocery pid n pr q e =>
      match (Product.grocery pid n pr q e).is_expired (clock k) with
      | none => none
      | some b =>
        (expiredIds clock (k + 1) rest).map (fun ids => if b then pid :: ids else ids)
    | _ => expiredIds clock k rest

/-- `remove_expired_products`: collect the expired grocery ids, then
`del self._products[pid]` for each. -/
def remove_expired_products (clock : Nat → Date) (inv : Inventory) :
    Option Inventory :=
  (expiredIds clock 0 inv.products).map
    (fun ids => ⟨inv.products.filter (fun p => !(ids.contains p.product_id))⟩)

/-- `save_to_file`: the list of records `json.dump` writes (one `to_dict` per
stored product, in iteration order).  The byte encoding itself is the external
JSON collaborator. -/
def save_to_file (inv : Inventory) : List Product.Record :=
  inv.products.map Product.to_dict

end Inventory

/-- The Python exceptions a single record can raise while being decoded, before
`load_from_file`'s `except Exception` wraps them:
`keyError k` is the `KeyError` from `item.pop(k)` on a missing key;
`typeError cls` is the `TypeError` from calling the `cls` constructor with
`**data` whose keyword set does not match the parameters;
`unknownType t` is the `InvalidProductDataError("Unknown product type: " + t)`
raised by `_create_product_from_dict` itself. -/
inductive DecodeErr where
  | keyError (k : String)
  | typeError (cls : String)
  | unknownType (tag : String)
  deriving DecidableEq, Repr

/-- `str(e)` for a decode-time exception, as interpolated into
`InvalidProductDataError(f"Error loading data: {e}")`.  The exact wording of
the first two mirrors CPython only loosely; no claim inspects it. -/
def DecodeErr.describe : DecodeErr → String
  | .keyError k => "'" ++ k ++ "'"
  | .typeError cls => cls ++ "() got mismatched keyword arguments"
  | .unknownType tag => "Unknown product type: " ++ tag

/-- `item[k]` on the parsed JSON object. -/
def getField (r : Product.Record) (k : String) : Option JValue :=
  (r.find? (fun kv => kv.1 == k)).map (fun kv => kv.2)

/-- The residue of `item.pop(k)`: the object with key `k` removed. -/
def removeKey (r : Product.Record) (k : String) : Product.Record :=
  r.eraseP (fun kv => kv.1 == k)

/-- `Electronics(**data)`: the keyword set must be exactly the constructor's
six parameters, else `TypeError`.  (Python performs no type validation on the
values; records here are well typed, which covers every record `save_to_file`
produces and every input a claim quantifies over.) -/
def decodeElectronics (data : Product.Record) : Except DecodeErr Product :=
  if data.length = 6 then
    match getField data "product_id", getField data "name", getField data "price",
        getField data "quantity_in_stock", getField data "warranty_years",
        getField data "brand" with
    | some (.s pid), some (.s n), some (.q pr), some (.i q), some (.i w), some (.s b) =>
      .ok (.electronics pid n pr q w b)
    | _, _, _, _, _, _ => .error (.typeError "Electronics")
  else .error (.typeError "Electronics")

/-- `Grocery(**data)`: exactly the five constructor parameters. -/
def decodeGrocery (data : Product.Record) : Except DecodeErr Product :=
  if data.length = 5 then
    match getField data "product_id", getField data "name", getField data "price",
        getField data "quantity_in_stock", getField data "expiry_date" with
    | some (.s pid), some (.s n), some (.q pr), some (.i q), some (.s e) =>
      .ok (.grocery pid n pr q e)
    | _, _, _, _, _ => .error (.typeError "Grocery")
  else .error (.typeError "Grocery")

/-- `Clothing(**data)`: exactly the six constructor parameters. -/
def decodeClothing (data : Product.Record) : Except DecodeErr Product :=
  if data.length = 6 then
    match getField data "product_id", getField data "name", getField data "price",
        getField data "quantity_in_stock", getField data "size",
        getField data "material" with
    | some (.s pid), some (.s n), some (.q pr), some (.i q), some (.s sz), some (.s m) =>
      .ok (.clothing pid n pr q sz m)
    | _, _, _, _, _, _ => .error (.typeError "Clothing")
  else .error (.typeError "Clothing")

/-- `_create_product_from_dict(cls_name, data)`: dispatch on the discriminator
(`item.pop("type")` may return any JSON value; a non-string compares unequal
to all three class names and falls through to the unknown-type raise). -/
def _create_product_from_dict (cls_name : JValue) (data : Product.Record) :
    Except DecodeErr Product :=
  if cls_name = .s "Electronics" then decodeElectronics data
  else if cls_name = .s "Grocery" then decodeGrocery data
  else if cls_name = .s "Clothing" then decodeClothing data
  else .error (.unknownType cls_name.render)

/-- One iteration of the load loop: `cls_name = item.pop("type")` (KeyError if
absent) then `_create_product_from_dict(cls_name, item)`. -/
def decodeRecord (r : Product.Record) : Except DecodeErr Product :=
  match getField r "type" with
  | none => .error (.keyError "type")
  | some tag => _create_product_from_dict tag (removeKey r "type")

/-- Decode a list of records; `none` as soon as one fails (used only to state
theorems about the successfully decoded prefix). -/
def decodeAll : List Product.Record → Option (List Product)
  | [] => some []
  | r :: rs =>
    match decodeRecord r with
    | .ok p => (decodeAll rs).map (fun ps => p :: ps)
    | .error _ => none

/-- Insert a list of decoded products in order, each by dict assignment
`self._products[product._product_id] = product`. -/
def Inventory.loadList (inv : Inventory) (ps : List Product) : Inventory :=
  ps.foldl Inventory.insertOrReplace inv

/-- The `for item in data:` loop of `load_from_file`: decode each record and
assign it into `self._products`; an exception stops the loop with the
insertions made so far kept (the dict is mutated in place). -/
def Inventory.loadLoop (inv : Inventory) :
    List Product.Record → Inventory × Option DecodeErr
  | [] => (inv, none)
  | r :: rest =>
    match decodeRecord r with
    | .error e => (inv, some e)
    | .ok p => loadLoop (inv.insertOrReplace p) rest

/-- `load_from_file`: the input is the outcome of `json.load` (a parse failure
carries its message).  Any exception out of parsing or the loop is caught and
re-raised as `InvalidProductDataError(f"Error loading data: {e}")` - including
the `InvalidProductDataError` for an unknown type, which gets wrapped a second
time.  The store keeps whatever the loop inserted before failing. -/
def Inventory.load_from_file (inv : Inventory)
    (input : Except String (List Product.Record)) : Inventory × Option InvError :=
  match input with
  | .error e => (inv, some (.invalidProductDataError ("Error loading data: " ++ e)))
  | .ok data =>
    match inv.loadLoop data with
    | (inv', none) => (inv', none)
    | (inv', some e) =>
      (inv', some (.invalidProductDataError ("Error loading data: " ++ e.describe)))

/-! ### Derived predicates used by the claims -/

/-- Every product in the store has non-negative stock. -/
def Inventory.NonNeg (inv : Inventory) : Prop :=
  ∀ p ∈ inv.products, 0 ≤ p.quantity_in_stock

/-- The store's keys are pairwise distinct (the invariant of every Python dict
state). -/
def Inventory.idsNodup (inv : Inventory) : Prop :=
  (inv.products.map Product.product_id).Nodup

/-- `p` is a grocery strictly expired at date `d` (parse failure counts as not
expired; a succeeding `remove_expired_products` call never meets that case). -/
def expiredAtB (d : Date) (p : Product) : Bool :=
  match p with
  | .grocery _ _ _ _ e =>
    match strptimeDate e with
    | some dt => Date.lt dt d
    | none => false
  | _ => false

/-- `p`'s expiry date parses (vacuously true for non-groceries). -/
def parseOk (p : Product) : Bool :=
  match p with
  | .grocery _ _ _ _ e => (strptimeDate e).isSome
  | _ => true

/-! ### Concrete fixtures (mirroring the repository's test fixture) -/

def phone : Product := .electronics "E001" "Phone" 1000 10 2 "Apple"

def milk : Product := .grocery "G001" "Milk" (7/2) 20 "2026-10-17"

def shirt : Product := .clothing "C001" "Shirt" 30 15 "M" "Cotton"

def sampleInv : Inventory := ⟨[phone, milk, shirt]⟩

def phone2 : Product := .electronics "E001" "Another Phone" 900 5 1 "Samsung"

def newShoe : Product := .clothing "C002" "Shoe" 0 0 "L" "Leather"

def negStock : Product := .electronics "N1" "Neg" 0 (-5) 0 "B"

def zeroItem : Product := .clothing "Z1" "Zero" 0 0 "S" "Wool"

def zeroInv : Inventory := ⟨[zeroItem]⟩

def gYesterday : Product := .grocery "GY" "Yogurt" 2 10 "2026-10-11"

def gToday : Product := .grocery "GT" "Butter" 3 5 "2026-10-12"

def gTomorrow : Product := .grocery "GM" "Cheese" 4 2 "2026-10-13"

def eBox : Product := .electronics "EB" "Box" 1 1 1 "B"

def expiryInv : Inventory := ⟨[gYesterday, gToday, gTomorrow, eBox]⟩

def todayW : Date := ⟨2026, 10, 12⟩

def gA : Product := .grocery "A" "Apples" 0 1 "2024-01-02"

def gB : Product := .grocery "B" "Bread" 0 1 "2024-01-01"

def invDrift : Inventory := ⟨[gA, gB]⟩

/-- A drifting clock: the first expiry check observes 2024-01-03, every later
check observes 2024-01-01 (the call straddles a date change). -/
def driftClock : Nat → Date := fun k => if k = 0 then ⟨2024, 1, 3⟩ else ⟨2024, 1, 1⟩

/-- A record with an unknown discriminator. -/
def toyRec : Product.Record := [("type", .s "Toy"), ("product_id", .s "T1")]

/-- A Grocery record missing its remaining constructor fields. -/
def missingFieldRec : Product.Record := [("type", .s "Grocery"), ("product_id", .s "G9")]

def dupA1 : Product := .grocery "D1" "Dup v1" 1 1 "2030-01-01"

def dupA2 : Product := .grocery "D1" "Dup v2" 2 2 "2031-01-01"

/-- One product of each variant, with zero-price and zero-stock edge values. -/
def roundInv : Inventory :=
  ⟨[.electronics "E1" "TV" 0 0 1 "LG",
    .grocery "G1" "Egg" (7/2) 0 "2026-01-01",
    .clothing "C1" "Cap" 0 3 "S" "Wool"]⟩

/-! ### Helper lemmas -/

theorem Product.product_id_withQuantity (p : Product) (q : Int) :
    (p.withQuantity q).product_id = p.product_id := by
  cases p <;> rfl

theorem Product.quantity_withQuantity (p : Product) (q : Int) :
    (p.withQuantity q).quantity_in_stock = q := by
  cases p <;> rfl

theorem Product.product_id_restock (p : Product) (a : Int) :
    (p.restock a).product_id = p.product_id := by
  cases p <;> rfl

theorem Product.quantity_restock (p : Product) (a : Int) :
    (p.restock a).quantity_in_stock = p.quantity_in_stock + a := by
  cases p <;> rfl

theorem Inventory.find?_modifyFirst_self (l : List Product) (k : String)
    (f : Product → Product) (hf : ∀ q, q.product_id = k → (f q).product_id = k) :
    (Inventory.modifyFirst k f l).find? (fun q => q.product_id == k) =
      (l.find? (fun q => q.product_id == k)).map f := by
  induction l with
  | nil => rfl
  | cons p rest ih =>
    by_cases hp : p.product_id = k
    · have hb : (p.product_id == k) = true := by simp [hp]
      have hb2 : ((f p).product_id == k) = true := by simp [hf p hp]
      simp [Inventory.modifyFirst, hb, List.find?_cons, hb2]
    · have hb : (p.product_id == k) = false := by simp [hp]
      simp [Inventory.modifyFirst, hb, List.find?_cons, ih]

theorem Inventory.find?_modifyFirst_ne (l : List Product) (k pid : String)
    (f : Product → Product) (hne : pid ≠ k)
    (hf : ∀ q, q.product_id = k → (f q).product_id = k) :
    (Inventory.modifyFirst k f l).find? (fun q => q.product_id == pid) =
      l.find? (fun q => q.product_id == pid) := by
  induction l with
  | nil => rfl
  | cons p rest ih =>
    by_cases hp : p.product_id = k
    · have hb : (p.product_id == k) = true := by simp [hp]
      have hb1 : (p.product_id == pid) = false := by
        simp [hp]
        exact fun h => hne h.symm
      have hb2 : ((f p).product_id == pid) = false := by
        simp [hf p hp]
        exact fun h => hne h.symm
      simp [Inventory.modifyFirst, hb, List.find?_cons, hb1, hb2]
    · have hb : (p.product_id == k) = false := by simp [hp]
      simp [Inventory.modifyFirst, hb, List.find?_cons, ih]

theorem Inventory.mem_modifyFirst (l : List Product) (k : String)
    (f : Product → Product) (x : Product) (hx : x ∈ Inventory.modifyFirst k f l) :
    x ∈ l ∨ ∃ p, p ∈ l ∧ x = f p := by
  induction l with
  | nil => simp [Inventory.modifyFirst] at hx
  | cons p rest ih =>
    by_cases hp : (p.product_id == k) = true
    · rw [Inventory.modifyFirst, if_pos hp] at hx
      rcases List.mem_cons.mp hx with h | h
      · exact Or.inr ⟨p, List.mem_cons_self p rest, h⟩
      · exact Or.inl (List.mem_cons_of_mem p h)
    · rw [Inventory.modifyFirst, if_neg hp] at hx
      rcases List.mem_cons.mp hx with h | h
      · exact Or.inl (by simp [h])
      · rcases ih h with h1 | ⟨q, hq, hxq⟩
        · exact Or.inl (List.mem_cons_of_mem p h1)
        · exact Or.inr ⟨q, List.mem_cons_of_mem p hq, hxq⟩

theorem Inventory.find_insertOrReplace (inv : Inventory) (p : Product) (pid : String) :
    (inv.insertOrReplace p).find pid =
      if p.product_id = pid then some p else inv.find pid := by
  unfold Inventory.insertOrReplace
  by_cases h : (inv.find p.product_id).isSome
  · rw [if_pos h]
    by_cases hpid : p.product_id = pid
    · subst hpid
      rw [if_pos rfl]
      show (Inventory.modifyFirst p.product_id (fun _ => p) inv.products).find?
          (fun q => q.product_id == p.product_id) = some p
      rw [Inventory.find?_modifyFirst_self _ _ _ (fun _ _ => rfl)]
      rcases Option.isSome_iff_exists.mp h with ⟨w, hw⟩
      show (inv.find p.product_id).map (fun _ => p) = some p
      rw [hw]; rfl
    · rw [if_neg hpid]
      exact Inventory.find?_modifyFirst_ne _ _ _ _ (fun hh => hpid hh.symm)
        (fun _ _ => rfl)
  · rw [if_neg h]
    have hnone : inv.find p.product_id = none := by
      cases hh : inv.find p.product_id with
      | none => rfl
      | some w => rw [hh] at h; simp at h
    show Inventory.find ⟨inv.products ++ [p]⟩ pid =
      if p.product_id = pid then some p else inv.find pid
    unfold Inventory.find at hnone ⊢
    rw [List.find?_append]
    by_cases hpid : p.product_id = pid
    · subst hpid
      rw [hnone]
      simp [List.find?_cons]
    · have hsing : (List.find? (fun q => q.product_id == pid) [p]) = none := by
        simp [List.find?_cons, hpid]
      rw [hsing, if_neg hpid]
      cases List.find? (fun q => q.product_id == pid) inv.products <;> rfl

theorem Inventory.loadList_cons (inv : Inventory) (p : Product) (ps : List Product) :
    inv.loadList (p :: ps) = (inv.insertOrReplace p).loadList ps := rfl

theorem Inventory.find_loadList_of_fresh (ps : List Product) (inv : Inventory)
    (pid : String) (h : ∀ p ∈ ps, p.product_id ≠ pid) :
    (inv.loadList ps).find pid = inv.find pid := by
  induction ps generalizing inv with
  | nil => rfl
  | cons p rest ih =>
    rw [Inventory.loadList_cons, ih _ (fun q hq => h q (List.mem_cons_of_mem p hq)),
      Inventory.find_insertOrReplace,
      if_neg (h p (List.mem_cons_self p rest))]

theorem Inventory.find_loadList_lastWrite (ps : List Product) (inv : Inventory)
    (pid : String) (p : Product)
    (h : ps.reverse.find? (fun q => q.product_id == pid) = some p) :
    (inv.loadList ps).find pid = some p := by
  induction ps generalizing inv with
  | nil => simp at h
  | cons q rest ih =>
    rw [Inventory.loadList_cons]
    rw [List.reverse_cons, List.find?_append] at h
    cases hrest : rest.reverse.find? (fun r => r.product_id == pid) with
    | some w =>
      rw [hrest] at h
      simp only [Option.or_some] at h
      exact ih _ (by rw [hrest, h])
    | none =>
      rw [hrest] at h
      simp only [Option.none_or] at h
      have hfresh : ∀ r ∈ rest, r.product_id ≠ pid := by
        intro r hr hcon
        have := List.find?_eq_none.mp hrest r (by simp [hr])
        simp [hcon] at this
      rw [Inventory.find_loadList_of_fresh _ _ _ hfresh,
        Inventory.find_insertOrReplace]
      rcases hqv : (q.product_id == pid) with _ | _
      · simp [List.find?_cons, hqv] at h
      · have hq : q.product_id = pid := by simpa using hqv
        simp [List.find?_cons, hqv] at h
        rw [if_pos hq, h]

theorem Inventory.loadList_append_of_fresh (ps : List Product) (inv : Inventory)
    (hfresh : ∀ p ∈ ps, inv.find p.product_id = none)
    (hnodup : (ps.map Product.product_id).Nodup) :
    inv.loadList ps = ⟨inv.products ++ ps⟩ := by
  induction ps generalizing inv with
  | nil => simp [Inventory.loadList]
  | cons p rest ih =>
    rw [Inventory.loadList_cons]
    have hp : inv.find p.product_id = none := hfresh p (List.mem_cons_self p rest)
    have hins : inv.insertOrReplace p = ⟨inv.products ++ [p]⟩ := by
      unfold Inventory.insertOrReplace
      rw [if_neg (by rw [hp]; simp)]
    rw [hins]
    rw [List.map_cons, List.nodup_cons] at hnodup
    have hfresh' : ∀ q ∈ rest, Inventory.find ⟨inv.products ++ [p]⟩ q.product_id = none := by
      intro q hq
      unfold Inventory.find
      rw [List.find?_append]
      have h1 : inv.find q.product_id = none := hfresh q (List.mem_cons_of_mem p hq)
      unfold Inventory.find at h1
      rw [h1]
      have hne : p.product_id ≠ q.product_id := by
        intro hcon
        exact hnodup.1 (hcon ▸ List.mem_map_of_mem Product.product_id hq)
      simp [List.find?_cons, hne]
    rw [ih _ hfresh' hnodup.2, List.append_assoc]
    rfl

theorem Inventory.loadLoop_append_ok (pre : List Product.Record) (ps : List Product)
    (inv : Inventory) (rest : List Product.Record)
    (h : decodeAll pre = some ps) :
    inv.loadLoop (pre ++ rest) = (inv.loadList ps).loadLoop rest := by
  induction pre generalizing inv ps with
  | nil =>
    simp [decodeAll] at h
    subst h
    rfl
  | cons r prerest ih =>
    unfold decodeAll at h
    cases hr : decodeRecord r with
    | error e => rw [hr] at h; simp at h
    | ok p =>
      rw [hr] at h
      cases hrest : decodeAll prerest with
      | none => rw [hrest] at h; simp at h
      | some qs =>
        rw [hrest] at h
        simp only [Option.map_some] at h
        rw [List.cons_append]
        show (match decodeRecord r with
          | .error e => (inv, some e)
          | .ok p => Inventory.loadLoop (inv.insertOrReplace p) (prerest ++ rest)) =
          (inv.loadList ps).loadLoop rest
        rw [hr]
        show (inv.insertOrReplace p).loadLoop (prerest ++ rest) =
          (inv.loadList ps).loadLoop rest
        have h' : p :: qs = ps := Option.some.inj h
        rw [ih _ _ hrest, ← h']
        rfl

theorem Inventory.loadLoop_ok (data : List Product.Record) (ps : List Product)
    (inv : Inventory) (h : decodeAll data = some ps) :
    inv.loadLoop data = (inv.loadList ps, none) := by
  have := Inventory.loadLoop_append_ok data ps inv [] h
  rw [List.append_nil] at this
  rw [this]
  rfl

theorem Inventory.loadLoop_fail (pre : List Product.Record) (ps : List Product)
    (inv : Inventory) (bad : Product.Record) (rest : List Product.Record)
    (e : DecodeErr) (hpre : decodeAll pre = some ps)
    (hbad : decodeRecord bad = .error e) :
    inv.loadLoop (pre ++ bad :: rest) = (inv.loadList ps, some e) := by
  rw [Inventory.loadLoop_append_ok pre ps inv (bad :: rest) hpre]
  show (match decodeRecord bad with
    | .error e => (inv.loadList ps, some e)
    | .ok p => Inventory.loadLoop ((inv.loadList ps).insertOrReplace p) rest) =
    (inv.loadList ps, some e)
  rw [hbad]

theorem Inventory.loadLoop_fails_of_bad (data : List Product.Record)
    (inv : Inventory) (r : Product.Record) (e : DecodeErr)
    (hr : r ∈ data) (he : decodeRecord r = .error e) :
    (inv.loadLoop data).2 ≠ none := by
  induction data generalizing inv with
  | nil => simp at hr
  | cons r0 rest ih =>
    show (match decodeRecord r0 with
      | .error e => (inv, some e)
      | .ok p => Inventory.loadLoop (inv.insertOrReplace p) rest).2 ≠ none
    cases h0 : decodeRecord r0 with
    | error e0 => simp
    | ok p =>
      rcases List.mem_cons.mp hr with h | h
      · rw [← h] at h0; rw [h0] at he; exact absurd he (by simp)
      · exact ih _ h

/-- Decoding the record `to_dict` produces reconstructs the very same product
(the round-trip at the single-record level). -/
theorem decodeRecord_to_dict (p : Product) : decodeRecord p.to_dict = .ok p := by
  cases p <;> rfl

theorem decodeAll_map_to_dict (ps : List Product) :
    decodeAll (ps.map Product.to_dict) = some ps := by
  induction ps with
  | nil => rfl
  | cons p rest ih =>
    rw [List.map_cons]
    unfold decodeAll
    rw [decodeRecord_to_dict, ih]
    rfl

theorem Inventory.find_loadLoop_of_fresh (data : List Product.Record)
    (inv : Inventory) (pid : String)
    (h : ∀ r ∈ data, ∀ p : Product, decodeRecord r = .ok p → p.product_id ≠ pid) :
    ((inv.loadLoop data).1).find pid = inv.find pid := by
  induction data generalizing inv with
  | nil => rfl
  | cons r rest ih =>
    show ((match decodeRecord r with
      | .error e => (inv, some e)
      | .ok p => Inventory.loadLoop (inv.insertOrReplace p) rest).1).find pid = inv.find pid
    cases hr : decodeRecord r with
    | error e => rfl
    | ok p =>
      have hne : p.product_id ≠ pid := h r (List.mem_cons_self r rest) p hr
      rw [ih _ (fun r' hr' => h r' (List.mem_cons_of_mem r hr')),
        Inventory.find_insertOrReplace, if_neg hne]

theorem Inventory.load_fst (inv : Inventory) (data : List Product.Record) :
    (inv.load_from_file (.ok data)).1 = (inv.loadLoop data).1 := by
  unfold Inventory.load_from_file
  cases h : inv.loadLoop data with
  | mk inv' err => cases err <;> simp [h]

theorem Inventory.load_snd (inv : Inventory) (data : List Product.Record) :
    (inv.load_from_file (.ok data)).2 =
      ((inv.loadLoop data).2).map
        (fun e => .invalidProductDataError ("Error loading data: " ++ e.describe)) := by
  unfold Inventory.load_from_file
  cases h : inv.loadLoop data with
  | mk inv' err => cases err <;> simp [h]

theorem Inventory.load_ok (inv : Inventory) (data : List Product.Record)
    (ps : List Product) (h : decodeAll data = some ps) :
    inv.load_from_file (.ok data) = (inv.loadList ps, none) := by
  have h1 := Inventory.load_fst inv data
  have h2 := Inventory.load_snd inv data
  rw [Inventory.loadLoop_ok data ps inv h] at h1 h2
  exact Prod.ext_iff.mpr ⟨h1.trans rfl, h2.trans rfl⟩

/-- With a clock that returns the same date `d` at every check (the intended
single-consistent-"now" situation), the expired-id scan collects exactly the
ids of the strictly expired groceries, in order. -/
theorem expiredIds_const (d : Date) (ps : List Product) (k : Nat)
    (hparse : ∀ p ∈ ps, parseOk p = true) :
    Inventory.expiredIds (fun _ => d) k ps =
      some ((ps.filter (expiredAtB d)).map Product.product_id) := by
  induction ps generalizing k with
  | nil => rfl
  | cons p rest ih =>
    have hrest : ∀ q ∈ rest, parseOk q = true :=
      fun q hq => hparse q (List.mem_cons_of_mem p hq)
    cases p with
    | grocery pid n pr q e =>
      have hp : parseOk (.grocery pid n pr q e) = true :=
        hparse _ (List.mem_cons_self _ rest)
      unfold parseOk at hp
      rcases Option.isSome_iff_exists.mp hp with ⟨dt, hdt⟩
      show (match (Product.grocery pid n pr q e).is_expired ((fun _ => d) k) with
        | none => none
        | some b => (Inventory.expiredIds (fun _ => d) (k + 1) rest).map
            (fun ids => if b then pid :: ids else ids)) = _
      have hie : (Product.grocery pid n pr q e).is_expired ((fun _ => d) k) =
          some (Date.lt dt d) := by
        show (strptimeDate e).map (fun x => Date.lt x d) = some (Date.lt dt d)
        rw [hdt]
        rfl
      rw [hie]
      show (Inventory.expiredIds (fun _ => d) (k + 1) rest).map
          (fun ids => if Date.lt dt d then pid :: ids else ids) = _
      rw [ih (k + 1) hrest]
      simp only [Option.map_some']
      rw [List.filter_cons]
      have hB : expiredAtB d (.grocery pid n pr q e) = Date.lt dt d := by
        show (match strptimeDate e with | some dt => Date.lt dt d | none => false) = _
        rw [hdt]
      rw [hB]
      cases hlt : Date.lt dt d <;> simp [Product.product_id]
    | electronics pid n pr q w b =>
      show Inventory.expiredIds (fun _ => d) k rest = _
      rw [ih k hrest, List.filter_cons]
      have hB : expiredAtB d (.electronics pid n pr q w b) = false := rfl
      rw [hB]
      simp
    | clothing pid n pr q s m =>
      show Inventory.expiredIds (fun _ => d) k rest = _
      rw [ih k hrest, List.filter_cons]
      have hB : expiredAtB d (.clothing pid n pr q s m) = false := rfl
      rw [hB]
      simp

/-- With a constant clock and unique keys, `remove_expired_products` filters out
exactly the groceries whose parsed `expiry_date` is strictly before the date. -/
theorem Inventory.remove_expired_const (d : Date) (inv : Inventory)
    (hnodup : inv.idsNodup) (hparse : ∀ p ∈ inv.products, parseOk p = true) :
    inv.remove_expired_products (fun _ => d) =
      some ⟨inv.products.filter (fun p => !(expiredAtB d p))⟩ := by
  unfold Inventory.remove_expired_products
  rw [expiredIds_const d inv.products 0 hparse]
  simp only [Option.map_some', Option.some.injEq, Inventory.mk.injEq]
  apply List.filter_congr
  intro p hp
  have hcontains :
      ((inv.products.filter (expiredAtB d)).map Product.product_id).contains
        p.product_id = expiredAtB d p := by
    cases hB : expiredAtB d p with
    | true =>
      have : p.product_id ∈ (inv.products.filter (expiredAtB d)).map Product.product_id :=
        List.mem_map_of_mem _ (List.mem_filter.mpr ⟨hp, hB⟩)
      simpa using this
    | false =>
      by_contra hcon
      have hmem : p.product_id ∈ (inv.products.filter (expiredAtB d)).map Product.product_id := by
        rcases hc : ((inv.products.filter (expiredAtB d)).map Product.product_id).contains
            p.product_id with _ | _
        · rw [hc] at hcon; exact absurd rfl hcon
        · simpa using hc
      rcases List.mem_map.mp hmem with ⟨q, hq, hqid⟩
      have hqmem : q ∈ inv.products := (List.mem_filter.mp hq).1
      have hqexp : expiredAtB d q = true := (List.mem_filter.mp hq).2
      have := List.inj_on_of_nodup_map hnodup hqmem hp hqid
      rw [this] at hqexp
      rw [hqexp] at hB
      exact Bool.noConfusion hB
  rw [hcontains]

/-- Lexicographic monotonicity fact used by the drifting-clock counterexample:
a date later than 2024-01-02 is also later than 2024-01-01. -/
theorem dateLt_jan2_jan1 (dd : Date)
    (h : Date.lt ⟨2024, 1, 2⟩ dd = true) : Date.lt ⟨2024, 1, 1⟩ dd = true := by
  obtain ⟨y, m, day⟩ := dd
  simp only [Date.lt, Bool.or_eq_true, Bool.and_eq_true, decide_eq_true_eq,
    beq_iff_eq] at h ⊢
  omega

theorem Inventory.find_updateStored (inv : Inventory) (pid : String) (p p' : Product)
    (hfind : inv.find pid = some p) (hid : p'.product_id = pid) :
    Inventory.find ⟨Inventory.modifyFirst pid (fun _ => p') inv.products⟩ pid = some p' := by
  show (Inventory.modifyFirst pid (fun _ => p') inv.products).find?
      (fun q => q.product_id == pid) = some p'
  rw [Inventory.find?_modifyFirst_self _ _ _ (fun _ _ => hid)]
  unfold Inventory.find at hfind
  rw [hfind]
  rfl

/-! ### Claims -/

/-- C1: for every store and every product id present in it, selling quantity
`q` with `q ≤` the product's current stock succeeds (no error) and reduces that
product's `quantity_in_stock` by exactly `q` (selling the full stock succeeds,
leaving zero), while selling `q >` current stock raises `OutOfStockError` and
leaves the store - hence the quantity - unchanged. -/
theorem C1_sell_reduces_or_raises (inv : Inventory) (pid : String) (q : Int)
    (p : Product) (hfind : inv.find pid = some p) :
    (q ≤ p.quantity_in_stock →
      (inv.sell_product pid q).2 = none ∧
      ((inv.sell_product pid q).1).find pid =
        some (p.withQuantity (p.quantity_in_stock - q)) ∧
      (((inv.sell_product pid q).1).find pid).map Product.quantity_in_stock =
        some (p.quantity_in_stock - q)) ∧
    (p.quantity_in_stock < q →
      inv.sell_product pid q =
        (inv, some (.outOfStockError ("Not enough stock for product " ++ p.pname)))) := by
  have hpid : p.product_id = pid := by
    have h := List.find?_some hfind
    simpa using h
  constructor
  · intro hle
    have hsell : p.sell q = (p.withQuantity (p.quantity_in_stock - q), none) := by
      unfold Product.sell
      rw [if_neg (not_lt.mpr hle)]
    have heq : inv.sell_product pid q =
        (⟨Inventory.modifyFirst pid
            (fun _ => p.withQuantity (p.quantity_in_stock - q)) inv.products⟩, none) := by
      unfold Inventory.sell_product
      rw [hfind]
      show (match p.sell q with
        | (_, some e) => (inv, some e)
        | (p', none) => (⟨Inventory.modifyFirst pid (fun _ => p') inv.products⟩, none)) = _
      rw [hsell]
    have hid : (p.withQuantity (p.quantity_in_stock - q)).product_id = pid := by
      rw [Product.product_id_withQuantity, hpid]
    refine ⟨by rw [heq], ?_, ?_⟩
    · rw [heq]
      exact Inventory.find_updateStored inv pid p _ hfind hid
    · rw [heq, Inventory.find_updateStored inv pid p _ hfind hid,
        Option.map_some', Product.quantity_withQuantity]
  · intro hgt
    have hsell : p.sell q =
        (p, some (.outOfStockError ("Not enough stock for product " ++ p.pname))) := by
      unfold Product.sell
      rw [if_pos hgt]
    unfold Inventory.sell_product
    rw [hfind]
    show (match p.sell q with
      | (_, some e) => (inv, some e)
      | (p', none) => (⟨Inventory.modifyFirst pid (fun _ => p') inv.products⟩, none)) = _
    rw [hsell]

/-- Witness for C1 on the test fixture: selling the full stock of 10 phones
succeeds and leaves zero; selling 11 raises `OutOfStockError` and leaves the
store unchanged. -/
theorem C1_witness :
    (Inventory.sell_product sampleInv "E001" 10).2 = none ∧
    ((Inventory.sell_product sampleInv "E001" 10).1).find "E001" =
      some (Product.electronics "E001" "Phone" 1000 0 2 "Apple") ∧
    Inventory.sell_product sampleInv "E001" 11 =
      (sampleInv, some (.outOfStockError "Not enough stock for product Phone")) := by
  have h := C1_sell_reduces_or_raises sampleInv "E001" 10 phone (by rfl)
  have h2 := C1_sell_reduces_or_raises sampleInv "E001" 11 phone (by rfl)
  exact ⟨(h.1 (by decide)).1, (h.1 (by decide)).2.1, h2.2 (by decide)⟩

/-- C3: `add_product` inserts the product when its `product_id` is not already
a key (and `list_all_products` afterwards contains it), and raises
`DuplicateProductIDError` when the id is already present, leaving the
previously stored product unchanged. -/
theorem C3_add_inserts_or_duplicate (inv : Inventory) (p : Product) :
    (inv.find p.product_id = none →
      inv.add_product p = (⟨inv.products ++ [p]⟩, none) ∧
      p ∈ ((inv.add_product p).1).list_all_products) ∧
    (∀ p0, inv.find p.product_id = some p0 →
      inv.add_product p =
        (inv, some (.duplicateProductIDError "Product ID already exists.")) ∧
      ((inv.add_product p).1).find p.product_id = some p0) := by
  constructor
  · intro h
    have heq : inv.add_product p = (⟨inv.products ++ [p]⟩, none) := by
      unfold Inventory.add_product
      rw [if_neg (by rw [h]; simp)]
    refine ⟨heq, ?_⟩
    rw [heq]
    show p ∈ inv.products ++ [p]
    exact List.mem_append_right _ (by simp)
  · intro p0 h
    have heq : inv.add_product p =
        (inv, some (.duplicateProductIDError "Product ID already exists.")) := by
      unfold Inventory.add_product
      rw [if_pos (by rw [h]; rfl)]
    exact ⟨heq, by rw [heq]; exact h⟩

/-- Witness for C3: adding a fresh product to the test fixture inserts it;
re-adding id `E001` fails with `DuplicateProductIDError` and the original
phone is still stored. -/
theorem C3_witness :
    Inventory.add_product sampleInv newShoe = (⟨[phone, milk, shirt, newShoe]⟩, none) ∧
    newShoe ∈ ((Inventory.add_product sampleInv newShoe).1).list_all_products ∧
    Inventory.add_product sampleInv phone2 =
      (sampleInv, some (.duplicateProductIDError "Product ID already exists.")) ∧
    ((Inventory.add_product sampleInv phone2).1).find "E001" = some phone := by
  have h1 := (C3_add_inserts_or_duplicate sampleInv newShoe).1 (by rfl)
  have h2 := (C3_add_inserts_or_duplicate sampleInv phone2).2 phone (by rfl)
  exact ⟨h1.1, h1.2, h2.1, h2.2⟩

/-- C4 (amended): selling or restocking an absent id raises the *base*
`InventoryError` with message "Product not found." - the code defines no
distinct `ProductNotFoundError` subclass - and leaves the store unchanged. -/
theorem C4_not_found_base_error (inv : Inventory) (pid : String) (q : Int)
    (h : inv.find pid = none) :
    inv.sell_product pid q = (inv, some (.inventoryError "Product not found.")) ∧
    inv.restock_product pid q = (inv, some (.inventoryError "Product not found.")) := by
  constructor
  · unfold Inventory.sell_product
    rw [h]
  · unfold Inventory.restock_product
    rw [h]

/-- Counterexample for C4 as stated: the error raised for an absent id is the
base class `InventoryError` itself (`isBase` is true), not a distinct
`ProductNotFoundError` kind - no such class exists in the code. -/
theorem C4_counterexample :
    (Inventory.sell_product sampleInv "UNKNOWN" 1).2 =
      some (InvError.inventoryError "Product not found.") ∧
    (Inventory.restock_product sampleInv "UNKNOWN" 1).2 =
      some (InvError.inventoryError "Product not found.") ∧
    InvError.isBase (InvError.inventoryError "Product not found.") = true := by
  refine ⟨rfl, rfl, rfl⟩

/-- Witness for C4's amended theorem at a concrete absent id. -/
theorem C4_witness :
    Inventory.sell_product sampleInv "UNKNOWN" 1 =
      (sampleInv, some (InvError.inventoryError "Product not found.")) ∧
    Inventory.restock_product sampleInv "UNKNOWN" 1 =
      (sampleInv, some (InvError.inventoryError "Product not found.")) :=
  C4_not_found_base_error sampleInv "UNKNOWN" 1 (by rfl)

/-- C8: `restock` adds `amount` to `quantity_in_stock` unconditionally and
returns (it has no error outcome at all); for negative `amount` it silently
decreases the stock. -/
theorem C8_restock_unchecked (p : Product) (amount : Int) :
    p.restock amount = p.withQuantity (p.quantity_in_stock + amount) ∧
    (p.restock amount).quantity_in_stock = p.quantity_in_stock + amount ∧
    (amount < 0 → (p.restock amount).quantity_in_stock < p.quantity_in_stock) := by
  refine ⟨rfl, Product.quantity_restock p amount, fun h => ?_⟩
  rw [Product.quantity_restock]
  omega

/-- Witness for C8: restocking the phone by -11 silently drives its stock to
-1, below zero, with no error. -/
theorem C8_witness :
    (phone.restock (-11)).quantity_in_stock = -1 ∧
    (phone.restock (-11)).quantity_in_stock < phone.quantity_in_stock := by
  have h := C8_restock_unchecked phone (-11)
  exact ⟨h.2.1.trans (by decide), h.2.2 (by decide)⟩

/-- Counterexample for C9 as stated: for a product whose stock is already
negative, a negative sell quantity can still exceed the stock, so `sell` DOES
raise `OutOfStockError` (the claim asserts it never raises for negative `q`). -/
theorem C9_counterexample :
    negStock.sell (-2) =
      (negStock, some (.outOfStockError "Not enough stock for product Neg")) ∧
    (-2 : Int) < 0 := by
  exact ⟨rfl, by decide⟩

/-- C9 (amended): for every product and negative `q` with
`q ≤ quantity_in_stock` (in particular whenever the stock is non-negative),
`sell q` does not raise and sets the stock to `stock - q`, silently increasing
it. -/
theorem C9_negative_sell_increases (p : Product) (q : Int) (hq : q < 0)
    (hle : q ≤ p.quantity_in_stock) :
    p.sell q = (p.withQuantity (p.quantity_in_stock - q), none) ∧
    p.quantity_in_stock < ((p.sell q).1).quantity_in_stock := by
  have hsell : p.sell q = (p.withQuantity (p.quantity_in_stock - q), none) := by
    unfold Product.sell
    rw [if_neg (not_lt.mpr hle)]
  refine ⟨hsell, ?_⟩
  rw [hsell]
  show p.quantity_in_stock < (p.withQuantity (p.quantity_in_stock - q)).quantity_in_stock
  rw [Product.quantity_withQuantity]
  omega

/-- Witness for C9's amended theorem: selling -5 milk raises nothing and
increases the stock from 20 to 25. -/
theorem C9_witness :
    milk.sell (-5) = (Product.grocery "G001" "Milk" (7/2) 25 "2026-10-17", none) ∧
    milk.quantity_in_stock < ((milk.sell (-5)).1).quantity_in_stock := by
  have h := C9_negative_sell_increases milk (-5) (by decide) (by decide)
  exact ⟨h.1, h.2⟩

/-- Counterexample for C5 as stated: `restock_product` is a store operation,
and restocking by -1 a product with stock 0 drives its stock to -1, so the
operations do not all preserve non-negativity. -/
theorem C5_counterexample :
    Inventory.NonNeg zeroInv ∧
    ((Inventory.restock_product zeroInv "Z1" (-1)).1).find "Z1" =
      some (Product.clothing "Z1" "Zero" 0 (-1) "S" "Wool") ∧
    ¬ Inventory.NonNeg ((Inventory.restock_product zeroInv "Z1" (-1)).1) := by
  refine ⟨by unfold Inventory.NonNeg; decide, by decide, ?_⟩
  intro h
  have := h (Product.clothing "Z1" "Zero" 0 (-1) "S" "Wool") (by decide)
  exact absurd this (by decide)

/-- C5 (amended): on a store whose products all have non-negative stock,
`add_product` of a product with non-negative stock, `remove_product`,
`sell_product` (any quantity), `restock_product` with a non-negative amount,
and `remove_expired_products` all preserve non-negativity of every product's
stock; `restock_product` with a negative amount is the one exception. -/
theorem C5_nonneg_preserved (inv : Inventory) (hinv : inv.NonNeg) :
    (∀ p : Product, 0 ≤ p.quantity_in_stock → ((inv.add_product p).1).NonNeg) ∧
    (∀ pid, (inv.remove_product pid).NonNeg) ∧
    (∀ pid q, ((inv.sell_product pid q).1).NonNeg) ∧
    (∀ pid a, 0 ≤ a → ((inv.restock_product pid a).1).NonNeg) ∧
    (∀ clock inv', inv.remove_expired_products clock = some inv' → inv'.NonNeg) := by
  refine ⟨?_, ?_, ?_, ?_, ?_⟩
  · intro p hp
    unfold Inventory.add_product
    by_cases h : (inv.find p.product_id).isSome = true
    · rw [if_pos h]
      exact hinv
    · rw [if_neg h]
      intro x hx
      rcases List.mem_append.mp hx with h1 | h1
      · exact hinv x h1
      · rw [List.mem_singleton.mp h1]
        exact hp
  · intro pid x hx
    exact hinv x (List.mem_of_mem_eraseP hx)
  · intro pid q
    cases hfind : inv.find pid with
    | none =>
      have heq : inv.sell_product pid q =
          (inv, some (.inventoryError "Product not found.")) := by
        unfold Inventory.sell_product
        rw [hfind]
      rw [heq]
      exact hinv
    | some p =>
      have hp : 0 ≤ p.quantity_in_stock := hinv p (List.mem_of_find?_eq_some hfind)
      by_cases hq : p.quantity_in_stock < q
      · have heq : inv.sell_product pid q =
            (inv, some (.outOfStockError ("Not enough stock for product " ++ p.pname))) := by
          unfold Inventory.sell_product
          rw [hfind]
          show (match p.sell q with
            | (_, some e) => (inv, some e)
            | (p', none) =>
              (⟨Inventory.modifyFirst pid (fun _ => p') inv.products⟩, none)) = _
          rw [show p.sell q =
            (p, some (.outOfStockError ("Not enough stock for product " ++ p.pname))) from by
              unfold Product.sell
              rw [if_pos hq]]
        rw [heq]
        exact hinv
      · have heq : inv.sell_product pid q =
            (⟨Inventory.modifyFirst pid
              (fun _ => p.withQuantity (p.quantity_in_stock - q)) inv.products⟩, none) := by
          unfold Inventory.sell_product
          rw [hfind]
          show (match p.sell q with
            | (_, some e) => (inv, some e)
            | (p', none) =>
              (⟨Inventory.modifyFirst pid (fun _ => p') inv.products⟩, none)) = _
          rw [show p.sell q = (p.withQuantity (p.quantity_in_stock - q), none) from by
            unfold Product.sell
            rw [if_neg hq]]
        rw [heq]
        intro x hx
        rcases Inventory.mem_modifyFirst _ _ _ x hx with h1 | ⟨r, hr, hxr⟩
        · exact hinv x h1
        · rw [hxr]
          show 0 ≤ (p.withQuantity (p.quantity_in_stock - q)).quantity_in_stock
          rw [Product.quantity_withQuantity]
          omega
  · intro pid a ha
    cases hfind : inv.find pid with
    | none =>
      have heq : inv.restock_product pid a =
          (inv, some (.inventoryError "Product not found.")) := by
        unfold Inventory.restock_product
        rw [hfind]
      rw [heq]
      exact hinv
    | some p =>
      have heq : inv.restock_product pid a =
          (⟨Inventory.modifyFirst pid (fun _ => p.restock a) inv.products⟩, none) := by
        unfold Inventory.restock_product
        rw [hfind]
      have hp : 0 ≤ p.quantity_in_stock := hinv p (List.mem_of_find?_eq_some hfind)
      rw [heq]
      intro x hx
      rcases Inventory.mem_modifyFirst _ _ _ x hx with h1 | ⟨r, hr, hxr⟩
      · exact hinv x h1
      · rw [hxr]
        show 0 ≤ (p.restock a).quantity_in_stock
        rw [Product.quantity_restock]
        omega
  · intro clock inv' h
    unfold Inventory.remove_expired_products at h
    cases hids : Inventory.expiredIds clock 0 inv.products with
    | none => rw [hids] at h; exact absurd h (by simp)
    | some ids =>
      rw [hids] at h
      simp only [Option.map_some', Option.some.injEq] at h
      rw [← h]
      intro x hx
      exact hinv x (List.mem_of_mem_filter hx)

/-- Witness for C5's amended theorem on the test fixture (all five operations
exercised at concrete arguments). -/
theorem C5_witness :
    ((Inventory.add_product sampleInv newShoe).1).NonNeg ∧
    (Inventory.remove_product sampleInv "G001").NonNeg ∧
    ((Inventory.sell_product sampleInv "E001" 3).1).NonNeg ∧
    ((Inventory.restock_product sampleInv "G001" 10).1).NonNeg ∧
    (∀ inv', Inventory.remove_expired_products (fun _ => todayW) sampleInv = some inv' →
      inv'.NonNeg) := by
  have h := C5_nonneg_preserved sampleInv (by unfold Inventory.NonNeg; decide)
  exact ⟨h.1 newShoe (by decide), h.2.1 "G001", h.2.2.1 "E001" 3,
    h.2.2.2.1 "G001" 10 (by decide), fun inv' hl => h.2.2.2.2 (fun _ => todayW) inv' hl⟩

/-- C2: round-trip law - for every store with distinct keys (the dict
invariant), loading the records produced by `save_to_file` into an empty store
reconstructs the very same store, each product field-wise identical and of its
original variant, with no error. -/
theorem C2_save_load_roundtrip (inv : Inventory) (h : inv.idsNodup) :
    Inventory.empty.load_from_file (.ok inv.save_to_file) = (inv, none) := by
  obtain ⟨ps⟩ := inv
  rw [show Inventory.save_to_file ⟨ps⟩ = ps.map Product.to_dict from rfl,
    Inventory.load_ok Inventory.empty _ ps (decodeAll_map_to_dict ps),
    Inventory.loadList_append_of_fresh ps Inventory.empty (fun p hp => rfl) h]
  rfl

/-- Witness for C2: a store with one product of each variant, including zero
stock and zero price edge values, survives the round trip unchanged. -/
theorem C2_witness :
    Inventory.empty.load_from_file (.ok roundInv.save_to_file) = (roundInv, none) :=
  C2_save_load_roundtrip roundInv (by unfold Inventory.idsNodup; decide)

/-- Counterexample for C6 as stated: the code evaluates `datetime.today()`
inside `is_expired` once per grocery, so a call whose checks straddle a date
change can remove a set of products that corresponds to NO single consistent
current date: with the drifting clock, apples (expiring 2024-01-02) are removed
yet bread (expiring 2024-01-01) is kept - impossible at any one date. -/
theorem C6_counterexample :
    Inventory.remove_expired_products driftClock invDrift = some ⟨[gB]⟩ ∧
    ¬ ∃ d : Date, Inventory.remove_expired_products (fun _ => d) invDrift = some ⟨[gB]⟩ := by
  constructor
  · rfl
  · rintro ⟨d, hd⟩
    rw [Inventory.remove_expired_const d invDrift (by unfold Inventory.idsNodup; decide)
      (by decide)] at hd
    have hfil : invDrift.products.filter (fun p => !(expiredAtB d p)) = [gB] :=
      congrArg Inventory.products (Option.some.inj hd)
    have hgB : expiredAtB d gB = false := by
      have hmem : gB ∈ invDrift.products.filter (fun p => !(expiredAtB d p)) := by
        rw [hfil]
        exact List.mem_singleton.mpr rfl
      have h2 := (List.mem_filter.mp hmem).2
      simpa using h2
    have hgA : expiredAtB d gA = true := by
      rcases hAv : expiredAtB d gA with _ | _
      · have hmem : gA ∈ invDrift.products.filter (fun p => !(expiredAtB d p)) :=
          List.mem_filter.mpr ⟨by decide, by rw [hAv]; rfl⟩
        rw [hfil] at hmem
        exact absurd (List.mem_singleton.mp hmem) (by decide)
      · rfl
    have hA' : Date.lt ⟨2024, 1, 2⟩ d = true := hgA
    have hB' : Date.lt ⟨2024, 1, 1⟩ d = false := hgB
    have hmono := dateLt_jan2_jan1 d hA'
    rw [hB'] at hmono
    exact Bool.noConfusion hmono

/-- C6 (amended): with every expiry check observing the same date `d` (the
code queries the current date once per grocery, so one date per call is the
normal situation but not an enforced one - see the counterexample),
`remove_expired_products` removes exactly the groceries whose parsed
`expiry_date` is strictly before `d`: a grocery expiring on `d` or later is
kept, and Electronics/Clothing are never removed (`expiredAtB` is false for
them by definition). -/
theorem C6_remove_expired_filters (d : Date) (inv : Inventory)
    (hnodup : inv.idsNodup) (hparse : ∀ p ∈ inv.products, parseOk p = true) :
    inv.remove_expired_products (fun _ => d) =
      some ⟨inv.products.filter (fun p => !(expiredAtB d p))⟩ :=
  Inventory.remove_expired_const d inv hnodup hparse

/-- Witness for C6's amended theorem: at 2026-10-12 the fixture loses exactly
the grocery dated 2026-10-11; the ones dated 2026-10-12 (today) and 2026-10-13
and the electronics item survive. -/
theorem C6_witness :
    Inventory.remove_expired_products (fun _ => todayW) expiryInv =
      some ⟨[gToday, gTomorrow, eBox]⟩ := by
  have h := C6_remove_expired_filters todayW expiryInv
    (by unfold Inventory.idsNodup; decide) (by decide)
  rw [h]
  rfl

/-- C7: every failure of `load_from_file` is an `InvalidProductDataError`
wrapping a description of the cause: a JSON parse failure is wrapped with its
message, a record with an unknown discriminator anywhere in the data makes the
call fail, and every failing call fails with `InvalidProductDataError`. -/
theorem C7_load_fails_invalid (inv : Inventory) :
    (∀ s, inv.load_from_file (.error s) =
      (inv, some (.invalidProductDataError ("Error loading data: " ++ s)))) ∧
    (∀ input, (inv.load_from_file input).2 ≠ none →
      ∃ m, (inv.load_from_file input).2 = some (.invalidProductDataError m)) ∧
    (∀ data r tag, r ∈ data → getField r "type" = some (.s tag) →
      tag ≠ "Electronics" → tag ≠ "Grocery" → tag ≠ "Clothing" →
      ∃ m, (inv.load_from_file (.ok data)).2 = some (.invalidProductDataError m)) := by
  have hcases : ∀ data : List Product.Record, (inv.load_from_file (.ok data)).2 ≠ none →
      ∃ m, (inv.load_from_file (.ok data)).2 = some (.invalidProductDataError m) := by
    intro data hne
    rw [Inventory.load_snd] at hne ⊢
    cases h : (inv.loadLoop data).2 with
    | none =>
      rw [h] at hne
      exact absurd rfl hne
    | some e => exact ⟨_, rfl⟩
  refine ⟨fun s => rfl, ?_, ?_⟩
  · intro input hne
    cases input with
    | error s => exact ⟨_, rfl⟩
    | ok data => exact hcases data hne
  · intro data r tag hr hin h1 h2 h3
    have hbad : decodeRecord r = .error (.unknownType tag) := by
      unfold decodeRecord
      rw [hin]
      show _create_product_from_dict (JValue.s tag) (removeKey r "type") =
        .error (.unknownType tag)
      unfold _create_product_from_dict
      rw [if_neg (by simp [h1]), if_neg (by simp [h2]), if_neg (by simp [h3])]
      rfl
    have hfail := Inventory.loadLoop_fails_of_bad data inv r (.unknownType tag) hr hbad
    apply hcases
    rw [Inventory.load_snd]
    cases h : (inv.loadLoop data).2 with
    | none => exact absurd h hfail
    | some e => simp

/-- Witness for C7: a parse failure, an unknown-tag record and a record with
missing constructor fields each surface as `InvalidProductDataError`. -/
theorem C7_witness :
    Inventory.empty.load_from_file (.error "Expecting value: line 1 column 1 (char 0)") =
      (Inventory.empty, some (.invalidProductDataError
        "Error loading data: Expecting value: line 1 column 1 (char 0)")) ∧
    (∃ m, (Inventory.empty.load_from_file (.ok [toyRec])).2 =
      some (.invalidProductDataError m)) ∧
    (∃ m, (Inventory.empty.load_from_file (.ok [missingFieldRec])).2 =
      some (.invalidProductDataError m)) := by
  have h := C7_load_fails_invalid Inventory.empty
  refine ⟨h.1 _, ?_, ?_⟩
  · exact h.2.2 [toyRec] toyRec "Toy" (by decide) rfl (by decide) (by decide) (by decide)
  · exact h.2.1 (.ok [missingFieldRec]) (by decide)

/-- Counterexample for C10 as stated: with two records sharing id "D1" before
a failing record, the product reconstructed from the FIRST of them is inserted
but does not remain - the later duplicate overwrites it before the call fails. -/
theorem C10_counterexample :
    decodeRecord dupA1.to_dict = .ok dupA1 ∧
    (∃ m, (Inventory.empty.load_from_file
      (.ok [dupA1.to_dict, dupA2.to_dict, toyRec])).2 =
        some (.invalidProductDataError m)) ∧
    ((Inventory.empty.load_from_file
      (.ok [dupA1.to_dict, dupA2.to_dict, toyRec])).1).find "D1" = some dupA2 ∧
    dupA2 ≠ dupA1 := by
  exact ⟨rfl, ⟨"Error loading data: Unknown product type: Toy", rfl⟩, rfl, by decide⟩

/-- C10 (amended): `load_from_file` is neither clearing nor atomic. (i) an id
for which no record decodes keeps its pre-call mapping, whether the call
succeeds or fails; (ii) when the loop fails at a record, the store keeps
exactly the insertions of the successfully decoded prefix and the call raises
`InvalidProductDataError`; (iii) after inserting a list of decoded products,
an id written by the list maps to the product of the LAST record bearing it
(matching ids overwrite, both pre-existing products and earlier records of the
same load - so an earlier duplicate does not remain). -/
theorem C10_load_partial_nonatomic (inv : Inventory) :
    (∀ data pid, (∀ r ∈ data, ∀ p : Product, decodeRecord r = .ok p → p.product_id ≠ pid) →
      ((inv.load_from_file (.ok data)).1).find pid = inv.find pid) ∧
    (∀ pre ps bad rest e, decodeAll pre = some ps → decodeRecord bad = .error e →
      (inv.load_from_file (.ok (pre ++ bad :: rest))).1 = inv.loadList ps ∧
      (inv.load_from_file (.ok (pre ++ bad :: rest))).2 =
        some (.invalidProductDataError ("Error loading data: " ++ e.describe))) ∧
    (∀ ps pid p, ps.reverse.find? (fun q => q.product_id == pid) = some p →
      (inv.loadList ps).find pid = some p) := by
  refine ⟨?_, ?_, ?_⟩
  · intro data pid h
    rw [Inventory.load_fst]
    exact Inventory.find_loadLoop_of_fresh data inv pid h
  · intro pre ps bad rest e hpre hbad
    have h := Inventory.loadLoop_fail pre ps inv bad rest e hpre hbad
    have h1 := Inventory.load_fst inv (pre ++ bad :: rest)
    have h2 := Inventory.load_snd inv (pre ++ bad :: rest)
    rw [h] at h1 h2
    exact ⟨h1.trans rfl, h2.trans rfl⟩
  · intro ps pid p h
    exact Inventory.find_loadList_lastWrite ps inv pid p h

/-- Witness for C10's amended theorem: loading a duplicated id plus a bad
record into the test fixture keeps the untouched shirt, stops with
`InvalidProductDataError`, and leaves the last duplicate as the stored value. -/
theorem C10_witness :
    ((sampleInv.load_from_file (.ok [dupA1.to_dict, toyRec])).1).find "C001" =
      sampleInv.find "C001" ∧
    (sampleInv.load_from_file (.ok [dupA1.to_dict, toyRec])).2 =
      some (.invalidProductDataError "Error loading data: Unknown product type: Toy") ∧
    (sampleInv.loadList [dupA1, dupA2]).find "D1" = some dupA2 := by
  have h := C10_load_partial_nonatomic sampleInv
  refine ⟨h.1 [dupA1.to_dict, toyRec] "C001" ?_,
    (h.2.1 [dupA1.to_dict] [dupA1] toyRec [] (.unknownType "Toy") rfl rfl).2,
    h.2.2 [dupA1, dupA2] "D1" dupA2 rfl⟩
  intro r hr p hp
  rcases List.mem_cons.mp hr with h1 | h1
  · rw [h1] at hp
    rw [show decodeRecord dupA1.to_dict = .ok dupA1 from rfl] at hp
    injection hp with hp2
    rw [← hp2]
    decide
  · have h2 : r = toyRec := by simpa using h1
    rw [h2] at hp
    rw [show decodeRecord toyRec = .error (.unknownType "Toy") from rfl] at hp
    exact Except.noConfusion hp

end Inv
